import Mathlib

/-!
Verification of the WASI test generator (`lib/wasi-tests/build/wasitests.rs`).

The generator's pure core is embedded shallowly:
* Rust's `str::lines`, `str::split_whitespace` and `str::split(sep)` are
  modelled on `List Char`;
* `extract_args_from_source_file` is modelled with an explicit `Option`
  for the Rust panics (`tokenized[0]` / `tokenized[1]` indexing and the
  trailing-colon assertion) and an explicit list of diagnostic messages
  for the `eprintln!` calls;
* `generate_test_file`'s rendered contents, `read_ignore_list`, the
  manifest rendering / change gate of `build`, and the event sequence of
  `generate_native_output` are embedded as pure functions.
-/

namespace Wasitests

/-! ## Rust string primitives on `List Char` -/

/-- Rust `str::split(sep)`: split at every occurrence of `sep`, keeping
empty fields; `n` separators yield `n + 1` fields. -/
def splitOnChar (sep : Char) : List Char → List (List Char)
  | [] => [[]]
  | c :: cs =>
    if c = sep then [] :: splitOnChar sep cs
    else
      match splitOnChar sep cs with
      | [] => [[c]]
      | t :: ts => (c :: t) :: ts

/-- Accumulator-based core of Rust `str::split_whitespace`. -/
def splitWSAux (cur : List Char) : List Char → List (List Char)
  | [] => if cur.isEmpty then [] else [cur.reverse]
  | c :: cs =>
    if c.isWhitespace then
      if cur.isEmpty then splitWSAux [] cs
      else cur.reverse :: splitWSAux [] cs
    else splitWSAux (c :: cur) cs

/-- Rust `str::split_whitespace`: maximal runs of non-whitespace characters. -/
def split_whitespace (l : List Char) : List (List Char) :=
  splitWSAux [] l

/-- Strip one trailing carriage return (part of Rust `str::lines`). -/
def stripCR (l : List Char) : List Char :=
  if l.getLast? = some '\r' then l.dropLast else l

/-- Rust `str::lines`: split at newlines, drop a final empty line,
strip a trailing `\r` from each line. -/
def rustLines (l : List Char) : List (List Char) :=
  let parts := splitOnChar '\n' l
  let parts := if parts.getLast? = some [] then parts.dropLast else parts
  parts.map stripCR

/-! ## The directive parser (`Args`, `extract_args_from_source_file`) -/

/-- `struct Args` of wasitests.rs: mapped directories, environment
variables and pre-opened directories. -/
structure Args where
  mapdir : List (List Char × List Char)
  envvars : List (List Char × List Char)
  po_dirs : List (List Char)
deriving DecidableEq

/-- `Args::default()`: all three lists empty. -/
def Args.default : Args := ⟨[], [], []⟩

/-- One iteration of the directive loop in `extract_args_from_source_file`.
Returns `none` where the Rust code panics (empty token list after the
`skip(1)`, missing trailing colon on the command name, or a missing
argument token where `tokenized[1]` is indexed); otherwise returns the
updated `Args` together with the `eprintln!` diagnostics of that line. -/
def processArgLine (args : Args) (arg_line : List Char) : Option (Args × List (List Char)) :=
  match (split_whitespace arg_line).drop 1 with
  | [] => none
  | t0 :: rest =>
    match t0.getLast? with
    | none => none
    | some c =>
      if c = ':' then
        let command_name := t0.dropLast
        if command_name = "mapdir".data then
          match rest with
          | [] => none
          | a :: _ =>
            match splitOnChar ':' a with
            | [dir_alias, real_dir] =>
              some ({ args with mapdir := args.mapdir ++ [(dir_alias, real_dir)] }, [])
            | _ =>
              some (args, ["Parse error in mapdir ".data ++ a ++ " not parsed correctly".data])
        else if command_name = "env".data then
          match rest with
          | [] => none
          | a :: _ =>
            match splitOnChar '=' a with
            | [name, val] =>
              some ({ args with envvars := args.envvars ++ [(name, val)] }, [])
            | _ =>
              some (args, ["Parse error in env ".data ++ a ++ " not parsed correctly".data])
        else if command_name = "dir".data then
          match rest with
          | [] => none
          | a :: _ => some ({ args with po_dirs := args.po_dirs ++ [a] }, [])
        else
          some (args, ["WARN: comment arg: ".data ++ command_name ++ " is not supported".data])
      else none

/-- The directive loop over the comment block's lines, accumulating
diagnostics; `none` propagates a panic. -/
def processArgLines (args : Args) : List (List Char) → Option (Args × List (List Char))
  | [] => some (args, [])
  | l :: ls =>
    match processArgLine args l with
    | none => none
    | some (a, d) =>
      match processArgLines a ls with
      | none => none
      | some (a', d') => some (a', d ++ d')

/-- The lines the directive loop iterates over: all lines after the first
while they start with `"// "`. -/
def argLines (source_code : List Char) : List (List Char) :=
  ((rustLines source_code).drop 1).takeWhile (fun line => "// ".data.isPrefixOf line)

/-- `extract_args_from_source_file`: `some (some args)` on success,
`some none` when the marker line is absent (Rust `None`), `none` when the
Rust code panics. -/
def extract_args_from_source_file (source_code : List Char) : Option (Option Args) :=
  if "// Args:".data.isPrefixOf source_code then
    (processArgLines Args.default (argLines source_code)).map (fun p => some p.1)
  else
    some none

/-- The `Args` value used by `generate_test_file`:
`extract_args_from_source_file(&src_code).unwrap_or_default()`. -/
def args_for_test_file (source_code : List Char) : Option Args :=
  (extract_args_from_source_file source_code).map (fun o => o.getD Args.default)

/-! ## Test-file emission (`generate_test_file`) -/

/-- `static BANNER` of wasitests.rs. -/
def BANNER : String :=
  "// !!! THIS IS A GENERATED FILE !!!\n// ANY MANUAL EDITS MAY BE OVERWRITTEN AT ANY TIME\n// Files autogenerated with cargo build (build/wasitests.rs).\n"

/-- The rendered `mapdir_args` vector literal of `generate_test_file`. -/
def mapdir_args_str (mapdir : List (List Char × List Char)) : List Char :=
  "vec![".data ++
    (mapdir.map (fun p =>
      "(\"".data ++ p.1 ++ "\".to_string(), ::std::path::PathBuf::from(\"".data ++
        p.2 ++ "\")),".data)).flatten ++
    "]".data

/-- The rendered `envvar_args` vector literal of `generate_test_file`. -/
def envvar_args_str (envvars : List (List Char × List Char)) : List Char :=
  "vec![".data ++
    (envvars.map (fun p => "\"".data ++ p.1 ++ "=".data ++ p.2 ++ "\".to_string(),".data)).flatten ++
    "]".data

/-- The rendered `dir_args` vector literal of `generate_test_file`. -/
def dir_args_str (po_dirs : List (List Char)) : List Char :=
  "vec![".data ++
    (po_dirs.map (fun d => "std::path::PathBuf::from(\"".data ++ d ++ "\"),".data)).flatten ++
    "]".data

/-- The `ignored` slot of the test template: `"\n#[ignore]"` when the
versioned test name or the bare module name is in the ignore set. -/
def ignored_str (ignores : List (List Char)) (test_name rs_module_name : List Char) : List Char :=
  if ignores.contains test_name || ignores.contains rs_module_name then
    "\n#[ignore]".data
  else
    []

/-- The `format!` template of `generate_test_file`, with each interpolated
field as a parameter. -/
def test_file_contents (ignore_slot test_name module_path dir_args mapdir_args envvar_args
    test_output_path : List Char) : List Char :=
  BANNER.data ++ "\n\n#[test]".data ++ ignore_slot ++ "\nfn test_".data ++ test_name ++
    "() \x7b\n    assert_wasi_output!(\n        \"../../".data ++ module_path ++
    "\",\n        \"".data ++ test_name ++
    "\",\n        ".data ++ dir_args ++
    ",\n        ".data ++ mapdir_args ++
    ",\n        ".data ++ envvar_args ++
    ",\n        \"../../".data ++ test_output_path ++
    "\"\n    );\n\x7d\n".data

/-- Contents written by `generate_test_file` for a (test, version) pair,
assembled exactly as in the source: versioned test name
`"{version_dir}_{rs_module_name}"`, the ignore slot, the three rendered
argument vectors, and output path `"wasitests/{rs_module_name}.out"`. -/
def generate_test_contents (version_dir rs_module_name wasm_out_name : List Char)
    (ignores : List (List Char)) (args : Args) : List Char :=
  let test_name := version_dir ++ "_".data ++ rs_module_name
  test_file_contents (ignored_str ignores test_name rs_module_name) test_name wasm_out_name
    (dir_args_str args.po_dirs) (mapdir_args_str args.mapdir) (envvar_args_str args.envvars)
    ("wasitests/".data ++ rs_module_name ++ ".out".data)

/-- `read_ignore_list`: every line of `wasitests/ignores.txt` lower-cased.
The `HashSet` is modelled as the list of its elements. -/
def read_ignore_list (file_lines : List String) : List (List Char) :=
  file_lines.map (fun l => l.toLower.data)

/-! ## Manifest rendering and the change gate (`build`) -/

/-- The hand-written `_common` module declaration inserted at index 1. -/
def common_mod_decl : String :=
  "// The _common module is not autogenerated.  It provides common macros for the wasitests\n#[macro_use]\nmod _common;"

/-- The manifest text built by `build`: module names sorted, wrapped as
`mod <name>;`, banner and `_common` declaration prepended, an empty line
appended, all joined with newlines. -/
def render_manifest (modules : List String) : String :=
  let sorted := modules.mergeSort
  let mods := sorted.map (fun m => "mod " ++ m ++ ";")
  String.intercalate "\n" (BANNER :: common_mod_decl :: (mods ++ [""]))

/-- The `should_regen` flag of `build`: an existing manifest is compared
byte-for-byte, a missing manifest (`File::open` fails) yields `false`. -/
def should_regen (existing : Option String) (modfile : String) : Bool :=
  match existing with
  | some s => s != modfile
  | none => false

/-- The manifest stage of `build` after module collection: `none` models
the `assert!(modules.len() > 0)` panic; otherwise the rendered manifest
text together with whether it is written to disk. -/
def build_manifest_stage (modules : List String) (existing : Option String) :
    Option (String × Bool) :=
  if modules.length > 0 then
    let modfile := render_manifest modules
    some (modfile, should_regen existing modfile)
  else
    none

/-! ## Native compilation and execution (`generate_native_output`) -/

/-- Captured result of an external process (`std::process::Output`). -/
structure CmdOutput where
  success : Bool
  stdout : List Char
  stderr : List Char
deriving DecidableEq

/-- Observable side effects of `generate_native_output` after the two
child processes return. -/
inductive NativeEvent where
  | print (msg : List Char)
  | set_permissions (mode : Nat)
  | write_file (path : List Char) (data : List Char)
deriving DecidableEq

/-- Modelled from the spec: `util::print_info_on_error` (util.rs is not
part of the sources); on a non-success status it prints a diagnostic
naming the context and including the captured stdout and stderr. -/
def print_info_on_error (out : CmdOutput) (context : List Char) : List NativeEvent :=
  if out.success then []
  else
    [NativeEvent.print (context ++ " stdout: ".data ++ out.stdout ++
      " stderr: ".data ++ out.stderr)]

/-- Event sequence of `generate_native_output` (unix branch), given the
captured results of the `rustc` invocation and of running the produced
executable: diagnostics on compile failure, `fs::set_permissions` with
mode `0o766`, diagnostics on run failure, then the unconditional write of
the captured stdout to the sibling `.out` file. -/
def generate_native_output (compile_out run_out : CmdOutput)
    (normalized_name : List Char) : List NativeEvent :=
  print_info_on_error compile_out "COMPILATION FAILED".data ++
    [NativeEvent.set_permissions 0o766] ++
    print_info_on_error run_out "NATIVE PROGRAM FAILED".data ++
    [NativeEvent.write_file (normalized_name ++ ".out".data) run_out.stdout]

/-- Permission triad (`other = 0`, `group = 1`, `owner = 2`) of a unix mode. -/
def mode_bits (mode who : Nat) : Nat := mode / 8 ^ who % 8

/-- Execute bit of a unix mode for `who`. -/
def has_execute (mode who : Nat) : Bool := mode_bits mode who % 2 = 1

/-- Write bit of a unix mode for `who`. -/
def has_write (mode who : Nat) : Bool := mode_bits mode who / 2 % 2 = 1

/-- Read bit of a unix mode for `who`. -/
def has_read (mode who : Nat) : Bool := mode_bits mode who / 4 % 2 = 1

/-! ## Substring occurrence -/

/-- `occursIn needle hay` holds when `needle` appears as a contiguous
substring of `hay`. -/
def occursIn (needle : List Char) : List Char → Bool
  | [] => needle.isEmpty
  | c :: cs => needle.isPrefixOf (c :: cs) || occursIn needle cs

theorem occursIn_eq_true_iff (needle l : List Char) :
    occursIn needle l = true ↔ needle <:+: l := by
  induction l with
  | nil => simp [occursIn, List.isEmpty_iff]
  | cons c cs ih => simp [occursIn, List.infix_cons_iff, ih]

theorem occursIn_cons_ne {c0 c : Char} (m cs : List Char) (h : c ≠ c0) :
    occursIn (c0 :: m) (c :: cs) = occursIn (c0 :: m) cs := by
  have hb : (c0 == c) = false := by simp [Ne.symm h]
  simp [occursIn, List.isPrefixOf, hb]

theorem occursIn_skip {c0 : Char} {m v : List Char} (xs : List Char)
    (h : c0 ∉ v) : occursIn (c0 :: m) (v ++ xs) = occursIn (c0 :: m) xs := by
  induction v with
  | nil => rfl
  | cons c cs ih =>
    have hc : c ≠ c0 := by rintro rfl; exact h (by simp)
    rw [List.cons_append, occursIn_cons_ne _ _ hc, ih (fun hm => h (by simp [hm]))]

theorem occursIn_of_not_mem {c0 : Char} {m v : List Char} (h : c0 ∉ v) :
    occursIn (c0 :: m) v = false := by
  have h2 := occursIn_skip (m := m) [] h
  simpa [occursIn] using h2

/-! ## Lemmas about the Rust string primitives -/

theorem splitOnChar_not_mem {sep : Char} {v : List Char} (h : sep ∉ v) :
    splitOnChar sep v = [v] := by
  induction v with
  | nil => rfl
  | cons c cs ih =>
    have hc : ¬ c = sep := by rintro rfl; exact h (by simp)
    have ih' := ih (fun hm => h (by simp [hm]))
    simp [splitOnChar, hc, ih']

theorem splitOnChar_append_sep {sep : Char} {v : List Char} (r : List Char) (h : sep ∉ v) :
    splitOnChar sep (v ++ sep :: r) = v :: splitOnChar sep r := by
  induction v with
  | nil => simp [splitOnChar]
  | cons c cs ih =>
    have hc : ¬ c = sep := by rintro rfl; exact h (by simp)
    have ih' := ih (fun hm => h (by simp [hm]))
    simp [splitOnChar, hc, ih']

theorem splitWSAux_token (cur : List Char) {t : List Char} (l : List Char)
    (h : ∀ c ∈ t, ¬ c.isWhitespace) :
    splitWSAux cur (t ++ l) = splitWSAux (t.reverse ++ cur) l := by
  induction t generalizing cur with
  | nil => simp
  | cons c cs ih =>
    have hc : ¬ c.isWhitespace := h c (by simp)
    rw [List.cons_append]
    rw [show splitWSAux cur (c :: (cs ++ l)) = splitWSAux (c :: cur) (cs ++ l) by
      simp [splitWSAux, hc]]
    rw [ih (c :: cur) (fun x hx => h x (by simp [hx]))]
    simp

theorem splitWSAux_space (cur : List Char) (l : List Char)
    (hne : cur ≠ []) :
    splitWSAux cur (' ' :: l) = cur.reverse :: splitWSAux [] l := by
  have : cur.isEmpty = false := by simpa [List.isEmpty_iff] using hne
  simp [splitWSAux, this]

theorem splitWS_single {t : List Char} (h : ∀ c ∈ t, ¬ c.isWhitespace) (hne : t ≠ []) :
    splitWSAux [] t = [t] := by
  have h2 := splitWSAux_token (t := t) [] [] h
  simp only [List.append_nil] at h2
  rw [h2]
  simp [splitWSAux, List.isEmpty_iff, hne]

theorem split_whitespace_cmd_arg {cmd arg : List Char}
    (hc : ∀ c ∈ cmd, ¬ c.isWhitespace) (hcne : cmd ≠ [])
    (ha : ∀ c ∈ arg, ¬ c.isWhitespace) (hane : arg ≠ []) :
    split_whitespace ('/' :: '/' :: ' ' :: (cmd ++ ' ' :: arg)) = [['/', '/'], cmd, arg] := by
  have s0 : split_whitespace ('/' :: '/' :: ' ' :: (cmd ++ ' ' :: arg)) =
      ['/', '/'] :: splitWSAux [] (cmd ++ ' ' :: arg) := rfl
  rw [s0, splitWSAux_token [] _ hc, List.append_nil,
    splitWSAux_space _ _ (by simpa using hcne),
    splitWS_single ha hane]
  simp

theorem flatten_newline_lines {v : List Char} (hv : '\n' ∉ v) (lines : List (List Char))
    (hl : ∀ l ∈ lines, '\n' ∉ l) :
    splitOnChar '\n' (v ++ (lines.map (fun l => '\n' :: l)).flatten) = v :: lines := by
  induction lines generalizing v with
  | nil => simp [splitOnChar_not_mem hv]
  | cons l ls ih =>
    simp only [List.map_cons, List.flatten_cons]
    rw [show v ++ (('\n' :: l) ++ (ls.map (fun x => '\n' :: x)).flatten)
        = v ++ '\n' :: (l ++ (ls.map (fun x => '\n' :: x)).flatten) from by simp]
    rw [splitOnChar_append_sep _ hv]
    rw [ih (hl l (by simp)) (fun x hx => hl x (by simp [hx]))]

theorem stripCR_eq_self {l : List Char} (h : '\r' ∉ l) : stripCR l = l := by
  unfold stripCR
  cases hg : l.getLast? with
  | none => simp
  | some c =>
    by_cases hc : c = '\r'
    · exact absurd (List.mem_of_getLast?_eq_some hg) (hc ▸ h)
    · simp [hc]

theorem takeWhile_all {p : α → Bool} {l : List α} (h : ∀ x ∈ l, p x = true) :
    l.takeWhile p = l := by
  induction l with
  | nil => rfl
  | cons c cs ih =>
    rw [List.takeWhile_cons, if_pos (h c (by simp)), ih (fun x hx => h x (by simp [hx]))]

/-! ## Rendering directive lists back into directive lines

Modelled from the spec: the source has no inverse printer, so the
directive grammar accepted by `extract_args_from_source_file`
(`// mapdir: <alias>:<dir>`, `// env: <name>=<value>`, `// dir: <path>`,
after the marker line `// Args:`) is rendered back literally, to state
the spec's round-trip property. -/

/-- A `mapdir` directive line of the grammar. -/
def renderMapdirLine (p : List Char × List Char) : List Char :=
  "// mapdir: ".data ++ p.1 ++ ':' :: p.2

/-- An `env` directive line of the grammar. -/
def renderEnvLine (p : List Char × List Char) : List Char :=
  "// env: ".data ++ p.1 ++ '=' :: p.2

/-- A `dir` directive line of the grammar. -/
def renderDirLine (d : List Char) : List Char :=
  "// dir: ".data ++ d

/-- All directive lines of an `Args` value. -/
def renderDirectiveLines (a : Args) : List (List Char) :=
  a.mapdir.map renderMapdirLine ++ a.envvars.map renderEnvLine ++ a.po_dirs.map renderDirLine

/-- A full directive block: the marker line followed by the directive lines. -/
def renderDirectiveBlock (a : Args) : List Char :=
  "// Args:".data ++ ((renderDirectiveLines a).map (fun l => '\n' :: l)).flatten

/-- A directive field is well formed when it is a nonempty token free of
whitespace. -/
abbrev wf_field (f : List Char) : Prop := f ≠ [] ∧ ∀ c ∈ f, ¬ c.isWhitespace

/-- Well-formed directive lists: token fields, with no extra `:` in a
`mapdir` entry and no extra `=` in an `env` entry (the grammar separates
the two fields by exactly one such character). -/
abbrev wf_args (a : Args) : Prop :=
  (∀ p ∈ a.mapdir, wf_field p.1 ∧ wf_field p.2 ∧ ':' ∉ p.1 ∧ ':' ∉ p.2) ∧
  (∀ p ∈ a.envvars, wf_field p.1 ∧ wf_field p.2 ∧ '=' ∉ p.1 ∧ '=' ∉ p.2) ∧
  (∀ d ∈ a.po_dirs, wf_field d)

theorem processArgLine_mapdir (args : Args) {p : List Char × List Char}
    (h1 : wf_field p.1) (h2 : wf_field p.2) (hc1 : ':' ∉ p.1) (hc2 : ':' ∉ p.2) :
    processArgLine args (renderMapdirLine p) =
      some ({ args with mapdir := args.mapdir ++ [p] }, []) := by
  have harg : ∀ c ∈ p.1 ++ ':' :: p.2, ¬ c.isWhitespace := by
    intro c hc
    rcases List.mem_append.1 hc with h | h
    · exact h1.2 c h
    · rcases List.mem_cons.1 h with rfl | h
      · decide
      · exact h2.2 c h
  have hsw : split_whitespace (renderMapdirLine p) =
      [['/', '/'], "mapdir:".data, p.1 ++ ':' :: p.2] := by
    have e : renderMapdirLine p =
        '/' :: '/' :: ' ' :: ("mapdir:".data ++ ' ' :: (p.1 ++ ':' :: p.2)) := rfl
    rw [e]
    exact split_whitespace_cmd_arg (by decide) (by decide) harg (by simp)
  have hred : processArgLine args (renderMapdirLine p) =
      match splitOnChar ':' (p.1 ++ ':' :: p.2) with
      | [dir_alias, real_dir] =>
        some ({ args with mapdir := args.mapdir ++ [(dir_alias, real_dir)] }, [])
      | _ => some (args,
          ["Parse error in mapdir ".data ++ (p.1 ++ ':' :: p.2) ++ " not parsed correctly".data]) := by
    unfold processArgLine
    rw [hsw]
    rfl
  rw [hred, splitOnChar_append_sep p.2 hc1, splitOnChar_not_mem hc2]

theorem processArgLine_env (args : Args) {p : List Char × List Char}
    (h1 : wf_field p.1) (h2 : wf_field p.2) (hc1 : '=' ∉ p.1) (hc2 : '=' ∉ p.2) :
    processArgLine args (renderEnvLine p) =
      some ({ args with envvars := args.envvars ++ [p] }, []) := by
  have harg : ∀ c ∈ p.1 ++ '=' :: p.2, ¬ c.isWhitespace := by
    intro c hc
    rcases List.mem_append.1 hc with h | h
    · exact h1.2 c h
    · rcases List.mem_cons.1 h with rfl | h
      · decide
      · exact h2.2 c h
  have hsw : split_whitespace (renderEnvLine p) =
      [['/', '/'], "env:".data, p.1 ++ '=' :: p.2] := by
    have e : renderEnvLine p =
        '/' :: '/' :: ' ' :: ("env:".data ++ ' ' :: (p.1 ++ '=' :: p.2)) := rfl
    rw [e]
    exact split_whitespace_cmd_arg (by decide) (by decide) harg (by simp)
  have hred : processArgLine args (renderEnvLine p) =
      match splitOnChar '=' (p.1 ++ '=' :: p.2) with
      | [name, val] =>
        some ({ args with envvars := args.envvars ++ [(name, val)] }, [])
      | _ => some (args,
          ["Parse error in env ".data ++ (p.1 ++ '=' :: p.2) ++ " not parsed correctly".data]) := by
    unfold processArgLine
    rw [hsw]
    rfl
  rw [hred, splitOnChar_append_sep p.2 hc1, splitOnChar_not_mem hc2]

theorem processArgLine_dir (args : Args) {d : List Char} (h : wf_field d) :
    processArgLine args (renderDirLine d) =
      some ({ args with po_dirs := args.po_dirs ++ [d] }, []) := by
  have hsw : split_whitespace (renderDirLine d) = [['/', '/'], "dir:".data, d] := by
    have e : renderDirLine d = '/' :: '/' :: ' ' :: ("dir:".data ++ ' ' :: d) := rfl
    rw [e]
    exact split_whitespace_cmd_arg (by decide) (by decide) h.2 h.1
  have hred : processArgLine args (renderDirLine d) =
      some ({ args with po_dirs := args.po_dirs ++ [d] }, []) := by
    unfold processArgLine
    rw [hsw]
    rfl
  exact hred

theorem processArgLines_cons_ok {args a : Args} {l : List Char} {dg : List (List Char)}
    {ls : List (List Char)} (h : processArgLine args l = some (a, dg)) :
    processArgLines args (l :: ls) =
      match processArgLines a ls with
      | none => none
      | some (a', d') => some (a', dg ++ d') := by
  cases hx : processArgLines a ls with
  | none => simp [processArgLines, h, hx]
  | some r => simp [processArgLines, h, hx]

theorem processArgLines_mapdir_chunk (ms : List (List Char × List Char))
    (hm : ∀ p ∈ ms, wf_field p.1 ∧ wf_field p.2 ∧ ':' ∉ p.1 ∧ ':' ∉ p.2)
    (args : Args) (rest : List (List Char)) :
    processArgLines args (ms.map renderMapdirLine ++ rest) =
      processArgLines { args with mapdir := args.mapdir ++ ms } rest := by
  induction ms generalizing args with
  | nil => cases args; simp
  | cons p ps ih =>
    have hp := hm p (by simp)
    rw [List.map_cons, List.cons_append,
      processArgLines_cons_ok (processArgLine_mapdir args hp.1 hp.2.1 hp.2.2.1 hp.2.2.2)]
    rw [ih (fun q hq => hm q (by simp [hq])) _]
    rw [show ((args.mapdir ++ [p]) ++ ps) = args.mapdir ++ p :: ps from by simp]
    cases hx : processArgLines { args with mapdir := args.mapdir ++ p :: ps } rest with
    | none => simp
    | some r => simp

theorem processArgLines_env_chunk (es : List (List Char × List Char))
    (he : ∀ p ∈ es, wf_field p.1 ∧ wf_field p.2 ∧ '=' ∉ p.1 ∧ '=' ∉ p.2)
    (args : Args) (rest : List (List Char)) :
    processArgLines args (es.map renderEnvLine ++ rest) =
      processArgLines { args with envvars := args.envvars ++ es } rest := by
  induction es generalizing args with
  | nil => cases args; simp
  | cons p ps ih =>
    have hp := he p (by simp)
    rw [List.map_cons, List.cons_append,
      processArgLines_cons_ok (processArgLine_env args hp.1 hp.2.1 hp.2.2.1 hp.2.2.2)]
    rw [ih (fun q hq => he q (by simp [hq])) _]
    rw [show ((args.envvars ++ [p]) ++ ps) = args.envvars ++ p :: ps from by simp]
    cases hx : processArgLines { args with envvars := args.envvars ++ p :: ps } rest with
    | none => simp
    | some r => simp

theorem processArgLines_dir_chunk (ds : List (List Char))
    (hd : ∀ d ∈ ds, wf_field d) (args : Args) (rest : List (List Char)) :
    processArgLines args (ds.map renderDirLine ++ rest) =
      processArgLines { args with po_dirs := args.po_dirs ++ ds } rest := by
  induction ds generalizing args with
  | nil => cases args; simp
  | cons p ps ih =>
    rw [List.map_cons, List.cons_append,
      processArgLines_cons_ok (processArgLine_dir args (hd p (by simp)))]
    rw [ih (fun q hq => hd q (by simp [hq])) _]
    rw [show ((args.po_dirs ++ [p]) ++ ps) = args.po_dirs ++ p :: ps from by simp]
    cases hx : processArgLines { args with po_dirs := args.po_dirs ++ p :: ps } rest with
    | none => simp
    | some r => simp

theorem renderLines_no_char (a : Args) (h : wf_args a) {c : Char}
    (hcw : c.isWhitespace = true) (hcs : c ≠ ' ') :
    ∀ l ∈ renderDirectiveLines a, c ∉ l := by
  have hmap : ∀ x ∈ "// mapdir: ".data, ¬ x.isWhitespace = true ∨ x = ' ' := by decide
  have henv : ∀ x ∈ "// env: ".data, ¬ x.isWhitespace = true ∨ x = ' ' := by decide
  have hdir : ∀ x ∈ "// dir: ".data, ¬ x.isWhitespace = true ∨ x = ' ' := by decide
  intro l hl hmem
  rcases List.mem_append.1 hl with hl' | hl'
  · rcases List.mem_append.1 hl' with hl'' | hl''
    · obtain ⟨p, hp, rfl⟩ := List.mem_map.1 hl''
      have hwf := h.1 p hp
      rcases List.mem_append.1 hmem with hm | hm
      · rcases List.mem_append.1 hm with hm' | hm'
        · rcases hmap c hm' with h' | h'
          · exact h' hcw
          · exact hcs h'
        · exact hwf.1.2 c hm' hcw
      · rcases List.mem_cons.1 hm with rfl | hm'
        · exact absurd hcw (by decide)
        · exact hwf.2.1.2 c hm' hcw
    · obtain ⟨p, hp, rfl⟩ := List.mem_map.1 hl''
      have hwf := h.2.1 p hp
      rcases List.mem_append.1 hmem with hm | hm
      · rcases List.mem_append.1 hm with hm' | hm'
        · rcases henv c hm' with h' | h'
          · exact h' hcw
          · exact hcs h'
        · exact hwf.1.2 c hm' hcw
      · rcases List.mem_cons.1 hm with rfl | hm'
        · exact absurd hcw (by decide)
        · exact hwf.2.1.2 c hm' hcw
  · obtain ⟨d, hd, rfl⟩ := List.mem_map.1 hl'
    have hwf := h.2.2 d hd
    rcases List.mem_append.1 hmem with hm | hm
    · rcases hdir c hm with h' | h'
      · exact h' hcw
      · exact hcs h'
    · exact hwf.2 c hm hcw

theorem getLast?_cons_ne_nil {L : List (List Char)} (h : ∀ l ∈ L, l ≠ [])
    {v : List Char} (hv : v ≠ []) : (v :: L).getLast? ≠ some [] := by
  induction L generalizing v with
  | nil => simpa using hv
  | cons x xs ih =>
    rw [List.getLast?_cons_cons]
    exact ih (fun l hl => h l (by simp [hl])) (h x (by simp))

theorem renderLines_ne_nil (a : Args) : ∀ l ∈ renderDirectiveLines a, l ≠ [] := by
  intro l hl
  rcases List.mem_append.1 hl with hl' | hl'
  · rcases List.mem_append.1 hl' with hl'' | hl''
    · obtain ⟨p, hp, rfl⟩ := List.mem_map.1 hl''
      simp [renderMapdirLine]
    · obtain ⟨p, hp, rfl⟩ := List.mem_map.1 hl''
      simp [renderEnvLine]
  · obtain ⟨d, hd, rfl⟩ := List.mem_map.1 hl'
    simp [renderDirLine]

theorem rustLines_renderBlock (a : Args) (h : wf_args a) :
    rustLines (renderDirectiveBlock a) = "// Args:".data :: renderDirectiveLines a := by
  have hnl : ∀ l ∈ renderDirectiveLines a, '\n' ∉ l :=
    renderLines_no_char a h (by decide) (by decide)
  have hcr : ∀ l ∈ renderDirectiveLines a, '\r' ∉ l :=
    renderLines_no_char a h (by decide) (by decide)
  have hsplit : splitOnChar '\n' (renderDirectiveBlock a) =
      "// Args:".data :: renderDirectiveLines a :=
    flatten_newline_lines (by decide) _ hnl
  unfold rustLines
  simp only [hsplit]
  rw [if_neg (getLast?_cons_ne_nil (renderLines_ne_nil a) (by decide))]
  rw [List.map_cons, stripCR_eq_self (by decide)]
  congr 1
  rw [List.map_congr_left (fun l hl => stripCR_eq_self (hcr l hl))]
  simp

theorem isPrefixOf_append_self (l x : List Char) : l.isPrefixOf (l ++ x) = true := by
  induction l with
  | nil => simp [List.isPrefixOf]
  | cons c cs ih => simp [List.isPrefixOf, ih]

theorem extract_args_render_roundtrip (a : Args) (h : wf_args a) :
    extract_args_from_source_file (renderDirectiveBlock a) = some (some a) := by
  have hpre : ("// Args:".data.isPrefixOf (renderDirectiveBlock a)) = true := by
    unfold renderDirectiveBlock
    exact isPrefixOf_append_self _ _
  have hstart : ∀ l ∈ renderDirectiveLines a, ("// ".data.isPrefixOf l) = true := by
    intro l hl
    rcases List.mem_append.1 hl with hl' | hl'
    · rcases List.mem_append.1 hl' with hl'' | hl''
      · obtain ⟨p, hp, rfl⟩ := List.mem_map.1 hl''
        rw [show renderMapdirLine p = "// ".data ++ ("mapdir: ".data ++ (p.1 ++ ':' :: p.2))
          from rfl]
        exact isPrefixOf_append_self _ _
      · obtain ⟨p, hp, rfl⟩ := List.mem_map.1 hl''
        rw [show renderEnvLine p = "// ".data ++ ("env: ".data ++ (p.1 ++ '=' :: p.2)) from rfl]
        exact isPrefixOf_append_self _ _
    · obtain ⟨d, hd, rfl⟩ := List.mem_map.1 hl'
      rw [show renderDirLine d = "// ".data ++ ("dir: ".data ++ d) from rfl]
      exact isPrefixOf_append_self _ _
  have hlines : argLines (renderDirectiveBlock a) = renderDirectiveLines a := by
    unfold argLines
    rw [rustLines_renderBlock a h, List.drop_succ_cons, List.drop_zero]
    exact takeWhile_all hstart
  unfold extract_args_from_source_file
  rw [hpre, if_pos rfl, hlines]
  obtain ⟨m, e, d⟩ := a
  have hm := h.1
  have hev := h.2.1
  have hd := h.2.2
  show (processArgLines Args.default
    (m.map renderMapdirLine ++ e.map renderEnvLine ++ d.map renderDirLine)).map
      (fun p => some p.1) = some (some ⟨m, e, d⟩)
  rw [List.append_assoc, processArgLines_mapdir_chunk m hm Args.default _,
    processArgLines_env_chunk e hev _ _,
    ← List.append_nil (List.map renderDirLine d), processArgLines_dir_chunk d hd _ _]
  rfl

/-! ## Occurrence of the skip annotation in generated test files -/

theorem hash_not_mem_mapdir_args {l : List (List Char × List Char)}
    (h : ∀ p ∈ l, '#' ∉ p.1 ∧ '#' ∉ p.2) : '#' ∉ mapdir_args_str l := by
  intro hmem
  unfold mapdir_args_str at hmem
  rcases List.mem_append.1 hmem with hm | hm
  · rcases List.mem_append.1 hm with hm' | hm'
    · exact absurd hm' (by decide)
    · obtain ⟨x, hx, hxm⟩ := List.mem_flatten.1 hm'
      obtain ⟨p, hp, rfl⟩ := List.mem_map.1 hx
      have hp' := h p hp
      simp only [List.mem_append] at hxm
      rcases hxm with (((h3 | h3) | h3) | h3) | h3
      · exact absurd h3 (by decide)
      · exact hp'.1 h3
      · exact absurd h3 (by decide)
      · exact hp'.2 h3
      · exact absurd h3 (by decide)
  · exact absurd hm (by decide)

theorem hash_not_mem_envvar_args {l : List (List Char × List Char)}
    (h : ∀ p ∈ l, '#' ∉ p.1 ∧ '#' ∉ p.2) : '#' ∉ envvar_args_str l := by
  intro hmem
  unfold envvar_args_str at hmem
  rcases List.mem_append.1 hmem with hm | hm
  · rcases List.mem_append.1 hm with hm' | hm'
    · exact absurd hm' (by decide)
    · obtain ⟨x, hx, hxm⟩ := List.mem_flatten.1 hm'
      obtain ⟨p, hp, rfl⟩ := List.mem_map.1 hx
      have hp' := h p hp
      simp only [List.mem_append] at hxm
      rcases hxm with (((h3 | h3) | h3) | h3) | h3
      · exact absurd h3 (by decide)
      · exact hp'.1 h3
      · exact absurd h3 (by decide)
      · exact hp'.2 h3
      · exact absurd h3 (by decide)
  · exact absurd hm (by decide)

theorem hash_not_mem_dir_args {l : List (List Char)}
    (h : ∀ d ∈ l, '#' ∉ d) : '#' ∉ dir_args_str l := by
  intro hmem
  unfold dir_args_str at hmem
  rcases List.mem_append.1 hmem with hm | hm
  · rcases List.mem_append.1 hm with hm' | hm'
    · exact absurd hm' (by decide)
    · obtain ⟨x, hx, hxm⟩ := List.mem_flatten.1 hm'
      obtain ⟨d, hd, rfl⟩ := List.mem_map.1 hx
      simp only [List.mem_append] at hxm
      rcases hxm with (h3 | h3) | h3
      · exact absurd h3 (by decide)
      · exact h d hd h3
      · exact absurd h3 (by decide)
  · exact absurd hm (by decide)

theorem occursIn_hash_step (X : List Char) :
    occursIn ('#' :: "[ignore]".data) ('#' :: ("[test]".data ++ X)) =
      occursIn ('#' :: "[ignore]".data) ("[test]".data ++ X) := by
  have hp : (('#' :: "[ignore]".data).isPrefixOf ('#' :: ("[test]".data ++ X))) = false := by
    show (('#' :: '[' :: 'i' :: "gnore]".data).isPrefixOf
      ('#' :: '[' :: 't' :: ("est]".data ++ X))) = false
    simp [List.isPrefixOf]
  show (('#' :: "[ignore]".data).isPrefixOf ('#' :: ("[test]".data ++ X)) ||
    occursIn ('#' :: "[ignore]".data) ("[test]".data ++ X)) = _
  rw [hp]
  simp

theorem no_hash_no_ignore_occurrence {tn mp d mpd ev op : List Char}
    (h1 : '#' ∉ tn) (h2 : '#' ∉ mp) (h3 : '#' ∉ d) (h4 : '#' ∉ mpd) (h5 : '#' ∉ ev)
    (h6 : '#' ∉ op) :
    occursIn ('#' :: "[ignore]".data) (test_file_contents [] tn mp d mpd ev op) = false := by
  simp only [test_file_contents, List.append_assoc, List.nil_append]
  rw [occursIn_skip _ (by decide : '#' ∉ BANNER.data)]
  have e : ∀ X : List Char,
      "\n\n#[test]".data ++ X = "\n\n".data ++ ('#' :: ("[test]".data ++ X)) := fun _ => rfl
  rw [e]
  rw [occursIn_skip _ (by decide : '#' ∉ "\n\n".data)]
  rw [occursIn_hash_step]
  rw [occursIn_skip _ (by decide : '#' ∉ "[test]".data)]
  rw [occursIn_skip _ (by decide : '#' ∉ "\nfn test_".data)]
  rw [occursIn_skip _ h1]
  rw [occursIn_skip _
    (by decide : '#' ∉ "() \x7b\n    assert_wasi_output!(\n        \"../../".data)]
  rw [occursIn_skip _ h2]
  rw [occursIn_skip _ (by decide : '#' ∉ "\",\n        \"".data)]
  rw [occursIn_skip _ h1]
  rw [occursIn_skip _ (by decide : '#' ∉ "\",\n        ".data)]
  rw [occursIn_skip _ h3]
  rw [occursIn_skip _ (by decide : '#' ∉ ",\n        ".data)]
  rw [occursIn_skip _ h4]
  rw [occursIn_skip _ (by decide : '#' ∉ ",\n        ".data)]
  rw [occursIn_skip _ h5]
  rw [occursIn_skip _ (by decide : '#' ∉ ",\n        \"../../".data)]
  rw [occursIn_skip _ h6]
  decide

theorem test_file_contents_slot (slot tn mp d mpd ev op : List Char) :
    test_file_contents slot tn mp d mpd ev op =
      (BANNER.data ++ "\n\n#[test]".data) ++ slot ++
        ("\nfn test_".data ++ tn ++
          "() \x7b\n    assert_wasi_output!(\n        \"../../".data ++ mp ++
          "\",\n        \"".data ++ tn ++ "\",\n        ".data ++ d ++ ",\n        ".data ++
          mpd ++ ",\n        ".data ++ ev ++ ",\n        \"../../".data ++ op ++
          "\"\n    );\n\x7d\n".data) := by
  simp [test_file_contents, List.append_assoc]

theorem ignore_slot_occurrence (tn mp d mpd ev op : List Char) :
    occursIn "#[ignore]".data
      (test_file_contents "\n#[ignore]".data tn mp d mpd ev op) = true := by
  rw [occursIn_eq_true_iff]
  have h1 : ("#[ignore]".data) <:+: ("\n#[ignore]".data : List Char) :=
    ⟨['\n'], [], by simp⟩
  have h2 : ("\n#[ignore]".data : List Char) <:+:
      test_file_contents "\n#[ignore]".data tn mp d mpd ev op :=
    ⟨BANNER.data ++ "\n\n#[test]".data, _, (test_file_contents_slot _ tn mp d mpd ev op).symm⟩
  exact h1.trans h2

/-! ## Claims -/

/-- C1: the manifest file is written if and only if its rendered content
differs byte-for-byte from an existing manifest on disk; a missing
manifest file is treated as "no change needed" (no write), and a second
generation over unchanged inputs (disk already holds the rendered
content) performs no write. -/
theorem claim_manifest_write_iff_differs (modules : List String) (existing : Option String)
    (hne : modules ≠ []) :
    build_manifest_stage modules existing =
      some (render_manifest modules, should_regen existing (render_manifest modules)) ∧
    (should_regen existing (render_manifest modules) = true ↔
      ∃ s, existing = some s ∧ s ≠ render_manifest modules) ∧
    should_regen none (render_manifest modules) = false ∧
    should_regen (some (render_manifest modules)) (render_manifest modules) = false := by
  refine ⟨?_, ?_, rfl, ?_⟩
  · unfold build_manifest_stage
    rw [if_pos (by simpa [List.length_pos] using hne)]
  · cases existing with
    | none => simp [should_regen]
    | some s => simp [should_regen, bne_iff_ne]
  · simp [should_regen]

/-- Witness for C1 at concrete inputs. -/
theorem claim_manifest_write_iff_differs_witness :
    (["a"] : List String) ≠ [] ∧
    (should_regen (some "x") (render_manifest ["a"]) = true ↔
      ∃ s, (some "x" : Option String) = some s ∧ s ≠ render_manifest ["a"]) :=
  ⟨by decide, (claim_manifest_write_iff_differs ["a"] (some "x") (by decide)).2.1⟩

/-- C2: the manifest content (banner, `_common` declaration, one
`mod <name>;` line per test-version pair sorted lexicographically,
trailing blank line) is byte-identical for any two module lists that are
permutations of each other, i.e. regardless of filesystem discovery
order. -/
theorem claim_manifest_order_independent {m1 m2 : List String} (h : m1.Perm m2) :
    render_manifest m1 = render_manifest m2 := by
  have hs : m1.mergeSort = m2.mergeSort :=
    List.eq_of_perm_of_sorted
      ((List.mergeSort_perm m1 _).trans (h.trans (List.mergeSort_perm m2 _).symm))
      (List.sorted_mergeSort' m1) (List.sorted_mergeSort' m2)
  unfold render_manifest
  rw [hs]

/-- Witness for C2 at concrete inputs. -/
theorem claim_manifest_order_independent_witness :
    (["b", "a"] : List String).Perm ["a", "b"] ∧
      render_manifest ["b", "a"] = render_manifest ["a", "b"] :=
  ⟨List.Perm.swap "a" "b" [],
    claim_manifest_order_independent (List.Perm.swap "a" "b" [])⟩

/-- C5: a source text that does not begin with the marker line `// Args:`
yields Rust `None` (no panic, no error), and the caller's
`unwrap_or_default()` produces the default directive set whose three
lists are all empty. -/
theorem claim_no_marker_default_args (source_code : List Char)
    (h : ¬ ("// Args:".data.isPrefixOf source_code = true)) :
    extract_args_from_source_file source_code = some none ∧
      args_for_test_file source_code = some Args.default ∧
      Args.default.mapdir = [] ∧ Args.default.envvars = [] ∧ Args.default.po_dirs = [] := by
  have he : extract_args_from_source_file source_code = some none := by
    unfold extract_args_from_source_file
    rw [if_neg h]
  exact ⟨he, by simp [args_for_test_file, he], rfl, rfl, rfl⟩

/-- Witness for C5 at a concrete marker-less source. -/
theorem claim_no_marker_default_args_witness :
    ¬ ("// Args:".data.isPrefixOf "fn main()".data = true) ∧
      extract_args_from_source_file "fn main()".data = some none :=
  ⟨by decide, (claim_no_marker_default_args "fn main()".data (by decide)).1⟩

/-- C6: the directive block
`// Args:\n// mapdir: a:/tmp/a\n// env: X=1\n// dir: /tmp/b` parses to
mapdir list `[("a", "/tmp/a")]`, env pair list `[("X", "1")]` (rendered by
the emitter as the single environment string `"X=1"`), and pre-opened
directory list `["/tmp/b"]`. -/
theorem claim_directive_block_example :
    extract_args_from_source_file
        "// Args:\n// mapdir: a:/tmp/a\n// env: X=1\n// dir: /tmp/b".data =
      some (some ⟨[("a".data, "/tmp/a".data)], [("X".data, "1".data)], ["/tmp/b".data]⟩) ∧
      envvar_args_str [("X".data, "1".data)] = "vec![\"X=1\".to_string(),]".data := by
  exact ⟨by decide, by decide⟩

/-- C7 counterexample: at a concrete run, the mode passed to
`fs::set_permissions` is `0o766` (decimal 502), under which the group and
other classes do not have the execute permission the claim asserts. -/
theorem claim_native_permissions_counterexample :
    generate_native_output ⟨true, [], []⟩ ⟨true, [], []⟩ "foo".data =
      [NativeEvent.set_permissions 502, NativeEvent.write_file "foo.out".data []] ∧
    has_execute 502 1 = false ∧ has_execute 502 0 = false := by
  exact ⟨by decide, by decide, by decide⟩

/-- C7 amended: after native compilation (unix branch) the executable's
permission bits are set to mode `0o766`: owner has read, write and
execute; group and other have read and write but not execute. -/
theorem claim_native_permissions_mode (compile_out run_out : CmdOutput) (n : List Char) :
    NativeEvent.set_permissions 502 ∈ generate_native_output compile_out run_out n ∧
    has_read 502 2 = true ∧ has_write 502 2 = true ∧ has_execute 502 2 = true ∧
    has_read 502 1 = true ∧ has_write 502 1 = true ∧ has_execute 502 1 = false ∧
    has_read 502 0 = true ∧ has_write 502 0 = true ∧ has_execute 502 0 = false := by
  refine ⟨?_, by decide, by decide, by decide, by decide, by decide, by decide,
    by decide, by decide, by decide⟩
  unfold generate_native_output
  simp [List.mem_append]

/-- C9: when the native reference executable exits with non-success, the
generation step is not aborted: a diagnostic carrying the captured stdout
and stderr is printed, and the captured stdout bytes are still persisted
to the sibling `.out` file exactly as captured. -/
theorem claim_native_failure_output_persisted (compile_out run_out : CmdOutput)
    (n : List Char) (h : run_out.success = false) :
    NativeEvent.write_file (n ++ ".out".data) run_out.stdout ∈
        generate_native_output compile_out run_out n ∧
      NativeEvent.print ("NATIVE PROGRAM FAILED".data ++ " stdout: ".data ++ run_out.stdout ++
          " stderr: ".data ++ run_out.stderr) ∈ generate_native_output compile_out run_out n := by
  unfold generate_native_output print_info_on_error
  rw [h]
  cases hcs : compile_out.success <;> constructor <;> simp [List.mem_append]

/-- Witness for C9 at a concrete failing run. -/
theorem claim_native_failure_output_persisted_witness :
    (⟨false, "partial".data, "boom".data⟩ : CmdOutput).success = false ∧
      NativeEvent.write_file ("t".data ++ ".out".data) "partial".data ∈
        generate_native_output ⟨true, [], []⟩ ⟨false, "partial".data, "boom".data⟩ "t".data :=
  ⟨rfl, (claim_native_failure_output_persisted ⟨true, [], []⟩
    ⟨false, "partial".data, "boom".data⟩ "t".data rfl).1⟩

/-- C10: with zero collected test modules the assertion
`assert!(modules.len() > 0)` fires before the manifest stage, so no
manifest content is rendered and no write decision is taken. -/
theorem claim_empty_modules_no_manifest (existing : Option String) :
    build_manifest_stage [] existing = none := by
  unfold build_manifest_stage
  rw [if_neg (by decide)]

/-- Directive lines that hit one of the three report-and-skip branches of
`extract_args_from_source_file`: a `mapdir` argument that does not split
into exactly two colon-separated fields, an `env` argument that does not
split into exactly two equals-separated fields, or an unrecognized
command name. -/
def skipped_directive_line (line : List Char) : Prop :=
  ∃ t0 rest, (split_whitespace line).drop 1 = t0 :: rest ∧ t0.getLast? = some ':' ∧
    ((t0.dropLast = "mapdir".data ∧ ∃ a as, rest = a :: as ∧ (splitOnChar ':' a).length ≠ 2) ∨
     (t0.dropLast = "env".data ∧ ∃ a as, rest = a :: as ∧ (splitOnChar '=' a).length ≠ 2) ∨
     (t0.dropLast ≠ "mapdir".data ∧ t0.dropLast ≠ "env".data ∧ t0.dropLast ≠ "dir".data))

theorem processArgLines_skip {args : Args} {line msg : List Char} {ls : List (List Char)}
    (h : processArgLine args line = some (args, [msg])) :
    processArgLines args (line :: ls) =
      (processArgLines args ls).map (fun r => (r.1, msg :: r.2)) := by
  rw [processArgLines_cons_ok h]
  cases hx : processArgLines args ls with
  | none => rfl
  | some r => cases r; rfl

/-- C3: a malformed `mapdir` or `env` argument and an unrecognized command
name are each reported (an `eprintln!` diagnostic is emitted) and that
line skipped (the accumulated `Args` is unchanged), and parsing of all
subsequent directive lines still occurs: the result on the remaining
lines is exactly the result without the malformed line, plus the
diagnostic. -/
theorem claim_malformed_directive_skipped (line : List Char) (h : skipped_directive_line line)
    (args : Args) (ls : List (List Char)) :
    ∃ msg, processArgLine args line = some (args, [msg]) ∧
      processArgLines args (line :: ls) =
        (processArgLines args ls).map (fun r => (r.1, msg :: r.2)) := by
  obtain ⟨t0, rest, h1, h2, h3⟩ := h
  have hline : ∃ msg, processArgLine args line = some (args, [msg]) := by
    rcases h3 with ⟨he, a, as, hrest, hlen⟩ | ⟨he, a, as, hrest, hlen⟩ | ⟨hm, hev, hd⟩
    · subst hrest
      refine ⟨"Parse error in mapdir ".data ++ a ++ " not parsed correctly".data, ?_⟩
      simp only [processArgLine, h1, h2, he, eq_self_iff_true, if_true]
      rcases hsp : splitOnChar ':' a with _ | ⟨x, _ | ⟨y, _ | _⟩⟩ <;>
        first
          | rfl
          | (exact absurd (by rw [hsp]; rfl) hlen)
    · subst hrest
      refine ⟨"Parse error in env ".data ++ a ++ " not parsed correctly".data, ?_⟩
      have hm : t0.dropLast ≠ "mapdir".data := by rw [he]; decide
      simp only [processArgLine, h1, h2, he, eq_self_iff_true, if_true, if_neg hm]
      rcases hsp : splitOnChar '=' a with _ | ⟨x, _ | ⟨y, _ | _⟩⟩ <;>
        first
          | rfl
          | (exact absurd (by rw [hsp]; rfl) hlen)
    · refine ⟨"WARN: comment arg: ".data ++ t0.dropLast ++ " is not supported".data, ?_⟩
      simp only [processArgLine, h1, h2, eq_self_iff_true, if_true,
        if_neg hm, if_neg hev, if_neg hd]
  obtain ⟨msg, hmsg⟩ := hline
  exact ⟨msg, hmsg, processArgLines_skip hmsg⟩

/-- Witness for C3: `// mapdir: onlyonefield` is skipped and the
following `// dir: /tmp/b` line is still parsed. -/
theorem claim_malformed_directive_skipped_witness :
    skipped_directive_line "// mapdir: onlyonefield".data ∧
      ∃ msg, processArgLine Args.default "// mapdir: onlyonefield".data =
          some (Args.default, [msg]) ∧
        processArgLines Args.default
            ["// mapdir: onlyonefield".data, "// dir: /tmp/b".data] =
          (processArgLines Args.default ["// dir: /tmp/b".data]).map
            (fun r => (r.1, msg :: r.2)) := by
  have hs : skipped_directive_line "// mapdir: onlyonefield".data :=
    ⟨"mapdir:".data, ["onlyonefield".data], by decide, by decide,
      Or.inl ⟨by decide, "onlyonefield".data, [], rfl, by decide⟩⟩
  exact ⟨hs, claim_malformed_directive_skipped _ hs Args.default _⟩

/-- C8: for every well-formed directive list triple, rendering it back
into directive lines of the parser's grammar and re-parsing the rendered
block yields exactly the original lists (and no diagnostics, no panic). -/
theorem claim_directive_roundtrip (a : Args) (h : wf_args a) :
    extract_args_from_source_file (renderDirectiveBlock a) = some (some a) :=
  extract_args_render_roundtrip a h

/-- Witness for C8 at a concrete directive set. -/
theorem claim_directive_roundtrip_witness :
    wf_args ⟨[("a".data, "/tmp/a".data)], [("X".data, "1".data)], ["/tmp/b".data]⟩ ∧
      extract_args_from_source_file (renderDirectiveBlock
          ⟨[("a".data, "/tmp/a".data)], [("X".data, "1".data)], ["/tmp/b".data]⟩) =
        some (some ⟨[("a".data, "/tmp/a".data)], [("X".data, "1".data)], ["/tmp/b".data]⟩) :=
  ⟨by decide, claim_directive_roundtrip _ (by decide)⟩

/-- C4: the generated test file contains the skip annotation `#[ignore]`
if and only if the versioned identifier `<version-dir>_<module>` or the
bare module name is in the ignore set, whose members are the lower-cased
lines of the ignore file (the module name itself is derived from the
lower-cased filename, making the membership case-insensitive). The
hypotheses require the interpolated fields to be free of `#`, which every
path, module name and directive field produced by the generator is. -/
theorem claim_skip_annotation_iff_ignored (ignores_raw : List String)
    (version_dir rs_module_name wasm_out_name : List Char) (args : Args)
    (h1 : '#' ∉ version_dir) (h2 : '#' ∉ rs_module_name) (h3 : '#' ∉ wasm_out_name)
    (h4 : ∀ p ∈ args.mapdir, '#' ∉ p.1 ∧ '#' ∉ p.2)
    (h5 : ∀ p ∈ args.envvars, '#' ∉ p.1 ∧ '#' ∉ p.2)
    (h6 : ∀ d ∈ args.po_dirs, '#' ∉ d) :
    occursIn "#[ignore]".data
        (generate_test_contents version_dir rs_module_name wasm_out_name
          (read_ignore_list ignores_raw) args) = true ↔
      ((∃ l ∈ ignores_raw, l.toLower.data = version_dir ++ "_".data ++ rs_module_name) ∨
        (∃ l ∈ ignores_raw, l.toLower.data = rs_module_name)) := by
  have hione : ∀ x : List Char,
      ((read_ignore_list ignores_raw).contains x = true) ↔
        ∃ l ∈ ignores_raw, l.toLower.data = x := by
    intro x
    simp [read_ignore_list, List.contains, List.elem_iff, List.mem_map]
  have htn : '#' ∉ version_dir ++ "_".data ++ rs_module_name := by
    intro hm
    rcases List.mem_append.1 hm with hm' | hm'
    · rcases List.mem_append.1 hm' with hm'' | hm''
      · exact h1 hm''
      · exact absurd hm'' (by decide)
    · exact h2 hm'
  have hout : '#' ∉ "wasitests/".data ++ rs_module_name ++ ".out".data := by
    intro hm
    rcases List.mem_append.1 hm with hm' | hm'
    · rcases List.mem_append.1 hm' with hm'' | hm''
      · exact absurd hm'' (by decide)
      · exact h2 hm''
    · exact absurd hm' (by decide)
  by_cases hc :
    ((read_ignore_list ignores_raw).contains (version_dir ++ "_".data ++ rs_module_name) ||
      (read_ignore_list ignores_raw).contains rs_module_name) = true
  · have hslot : ignored_str (read_ignore_list ignores_raw)
        (version_dir ++ "_".data ++ rs_module_name) rs_module_name = "\n#[ignore]".data := by
      unfold ignored_str
      rw [if_pos hc]
    have hgen : generate_test_contents version_dir rs_module_name wasm_out_name
        (read_ignore_list ignores_raw) args =
        test_file_contents "\n#[ignore]".data
          (version_dir ++ "_".data ++ rs_module_name) wasm_out_name
          (dir_args_str args.po_dirs) (mapdir_args_str args.mapdir)
          (envvar_args_str args.envvars)
          ("wasitests/".data ++ rs_module_name ++ ".out".data) := by
      simp only [generate_test_contents]
      rw [hslot]
    constructor
    · intro _
      rcases Bool.or_eq_true_iff.1 hc with hx | hx
      · exact Or.inl ((hione _).1 hx)
      · exact Or.inr ((hione _).1 hx)
    · intro _
      rw [hgen]
      exact ignore_slot_occurrence _ _ _ _ _ _
  · have hslot : ignored_str (read_ignore_list ignores_raw)
        (version_dir ++ "_".data ++ rs_module_name) rs_module_name = [] := by
      unfold ignored_str
      rw [if_neg hc]
    have hgen : generate_test_contents version_dir rs_module_name wasm_out_name
        (read_ignore_list ignores_raw) args =
        test_file_contents [] (version_dir ++ "_".data ++ rs_module_name) wasm_out_name
          (dir_args_str args.po_dirs) (mapdir_args_str args.mapdir)
          (envvar_args_str args.envvars)
          ("wasitests/".data ++ rs_module_name ++ ".out".data) := by
      simp only [generate_test_contents]
      rw [hslot]
    have hfalse : occursIn "#[ignore]".data
        (test_file_contents [] (version_dir ++ "_".data ++ rs_module_name) wasm_out_name
          (dir_args_str args.po_dirs) (mapdir_args_str args.mapdir)
          (envvar_args_str args.envvars)
          ("wasitests/".data ++ rs_module_name ++ ".out".data)) = false :=
      no_hash_no_ignore_occurrence htn h3 (hash_not_mem_dir_args h6)
        (hash_not_mem_mapdir_args h4) (hash_not_mem_envvar_args h5) hout
    rw [hgen, hfalse]
    constructor
    · intro hx
      cases hx
    · intro hx
      exfalso
      apply hc
      rw [Bool.or_eq_true_iff]
      rcases hx with hx | hx
      · exact Or.inl ((hione _).2 hx)
      · exact Or.inr ((hione _).2 hx)

/-- Witness for C4 at concrete inputs: the ignore line `Snapshot1_Fseek`
(lower-cased on load) makes the `snapshot1_fseek` test carry the
annotation. -/
theorem claim_skip_annotation_iff_ignored_witness :
    ('#' ∉ "snapshot1".data) ∧
      (occursIn "#[ignore]".data
          (generate_test_contents "snapshot1".data "fseek".data
            "wasitests/snapshot1/fseek.wasm".data (read_ignore_list ["Snapshot1_Fseek"])
            Args.default) = true ↔
        ((∃ l ∈ ["Snapshot1_Fseek"],
            l.toLower.data = "snapshot1".data ++ "_".data ++ "fseek".data) ∨
          (∃ l ∈ ["Snapshot1_Fseek"], l.toLower.data = "fseek".data))) :=
  ⟨by decide,
    claim_skip_annotation_iff_ignored ["Snapshot1_Fseek"] "snapshot1".data "fseek".data
      "wasitests/snapshot1/fseek.wasm".data Args.default (by decide) (by decide) (by decide)
      (by decide) (by decide) (by decide)⟩

end Wasitests
